import Mathlib

/-!
# The RTP video output backend of weston (`libweston/compositor-rtpvideo.c`)

A shallow embedding of the output-driving code of the backend: the mode table
(`rtpvideo_insert_new_mode`, `ensure_matching_mode`), the output life cycle
(`rtpvideo_output_set_size`, `rtpvideo_output_enable`, `rtpvideo_switch_mode`),
the scanline encoder (`rtpvideo_output_repaint`) and the two timer handlers
(`finish_frame_handler`, `redraw_frame_handler`).

Conventions of the embedding.

* C `int` values are `Int`; signed arithmetic is taken without overflow (overflow
  of a signed `int` is undefined in C).  A conversion to `uint32_t` is an
  explicit `% 2 ^ 32`.
* Heap objects of type `struct weston_mode` live in a list `heap`; the address of
  a mode is its index in that list and `NULL` is `none`.  The `wl_list`
  `mode_list` is the list of the addresses it links, head first.
* Calls into the collaborators (transport library, pixman, the compositor core,
  the event loop) are recorded as a list of `Event`s, in call order.  What a
  collaborator answers is an input of the embedded function: the presentation
  clock reading, whether a line buffer could be acquired, whether `zalloc`
  succeeded, the negotiated video format, the pixman operations.
-/

namespace RtpVideo

/-! ## Constants -/

/-- The refresh rate every inserted mode gets: `#define REFRESH_FREQ 60000`. -/
def REFRESH_FREQ : Int := 60000

/-- Value of `WL_OUTPUT_MODE_CURRENT` in the wayland protocol (`0x1`); the header
belongs to libwayland. -/
def WL_OUTPUT_MODE_CURRENT : Nat := 1

/-- Value of `WL_OUTPUT_MODE_PREFERRED` in the wayland protocol (`0x2`). -/
def WL_OUTPUT_MODE_PREFERRED : Nat := 2

/-- Modelled from the spec: `WP_PRESENTATION_FEEDBACK_INVALID` is declared in
libweston's `compositor.h`, which is not among the sources of the backend.  It is
the "invalid feedback" status, a flag bit of its own above the four feedback-kind
bits; in that header it is `(1U << 31)`. -/
def WP_PRESENTATION_FEEDBACK_INVALID : Nat := 2 ^ 31

/-- Value of `ENOENT` in `errno.h`. -/
def ENOENT : Int := 2

/-! ## Data model -/

/-- The `struct timespec` read from the presentation clock. -/
structure timespec where
  tv_sec : Int
  tv_nsec : Int
deriving DecidableEq

/-- The `extents` box of a `pixman_region32_t`: `x1, y1, x2, y2`. -/
structure pixman_box32 where
  x1 : Int
  y1 : Int
  x2 : Int
  y2 : Int
deriving DecidableEq

/-- The four pixman formats the backend selects between. -/
inductive pixman_format_code_t where
  | PIXMAN_b8g8r8
  | PIXMAN_r8g8b8
  | PIXMAN_a8b8g8r8
  | PIXMAN_a8r8g8b8
deriving DecidableEq

/-- The `RtpVideoTx_Format` values the backend distinguishes; `other` stands for
any value that reaches the `default:` label. -/
inductive RtpVideoTx_Format where
  | RGB_8bit
  | RGBA_8bit
  | BGR_8bit
  | BGRA_8bit
  | other
deriving DecidableEq

/-- A pixman bits image as the backend sees it: `pixman_image_get_data` is
`data` (the bytes of the buffer, byte 0 first) and `pixman_image_get_stride` is
`stride` (bytes per row). -/
structure Surface where
  format : pixman_format_code_t
  width : Int
  height : Int
  stride : Nat
  data : List Nat
deriving DecidableEq

/-- The two timers of an output. -/
inductive Timer where
  | finish_frame
  | redraw_frame
deriving DecidableEq

/-- Calls made into the collaborators, with their arguments. -/
inductive Event where
  | beginFrame (timestamp : Int)
  | getLineBuffer (length : Nat)
  | addLine (row : Int) (col : Int) (length : Nat) (buffer : List (Option Nat)) (flags : Nat)
  | flush
  | weston_log
  | finish_frame (ts : timespec) (flags : Nat)
  | timer_update (t : Timer) (ms : Int)
  | timer_add (t : Timer)
  | create_bits (format : pixman_format_code_t) (width : Int) (height : Int) (rowstride : Int)
  | composite32 (width : Int) (height : Int)
  | image_unref
  | renderer_output_create
  | renderer_output_destroy
deriving DecidableEq

/-! ## The scanline encoder -/

/-- The timestamp expression of `rtpvideo_output_repaint`:
`(ts.tv_sec * 25)+(ts.tv_nsec/40000)`, in `long` arithmetic; C division
truncates towards zero. -/
def frame_timestamp (ts : timespec) : Int :=
  (ts.tv_sec * 25) + Int.tdiv ts.tv_nsec 40000

/-- One byte of the surface buffer at byte offset `off` from
`pixman_image_get_data`; `none` when the offset is outside the buffer. -/
def read_byte (s : Surface) (off : Int) : Option Nat :=
  if 0 ≤ off then s.data[off.toNat]? else none

/-- The bytes `memcpy(buffer, ptr, length)` stores in `buffer`, where `ptr` is a
`uint32_t *` that is `ptr` words past `pixman_image_get_data`. -/
def memcpy (s : Surface) (ptr : Int) (length : Nat) : List (Option Nat) :=
  (List.range length).map (fun (i : Nat) => read_byte s (4 * ptr + (i : Int)))

/-- The value of `uint32_t length = (x2 - x1)*3`. -/
def line_length (damage : pixman_box32) : Nat :=
  (((damage.x2 - damage.x1) * 3) % 2 ^ 32).toNat

/-- The value of `flags` in iteration `y` of the loop. -/
def line_flags (damage : pixman_box32) (y : Nat) : Nat :=
  if (y : Int) = damage.y2 - damage.y1 - 1 then 1 else 0

/-- The `for(y=0; y < y2 - y1; ++y)` loop of `rtpvideo_output_repaint`, started
in iteration `y` with the word pointer `ptr`.  `acq y` tells whether
`RtpVideoTx_getLineBuffer` returns 0 in iteration `y`.  The first argument
bounds the number of iterations. -/
def repaint_loop (s : Surface) (acq : Nat → Bool) (damage : pixman_box32) :
    Nat → Nat → Int → List Event
  | 0, _, _ => []
  | fuel + 1, y, ptr =>
    if (y : Int) < damage.y2 - damage.y1 then
      (Event.getLineBuffer (line_length damage) ::
        (if acq y then
          [Event.addLine (damage.y1 + (y : Int)) damage.x1 (line_length damage)
            (memcpy s ptr (line_length damage)) (line_flags damage y)]
        else
          [Event.weston_log])) ++
      repaint_loop s acq damage fuel (y + 1) (ptr + ((s.stride / 4 : Nat) : Int))
    else []

/-- Embedding of `rtpvideo_output_repaint`: the return value and the calls made.
The loop runs at most `y2 - y1` times, so that many iterations are provided. -/
def rtpvideo_output_repaint (s : Surface) (acq : Nat → Bool) (ts : timespec)
    (damage : pixman_box32) : Int × List Event :=
  let ptr : Int := damage.x1 + damage.y1 * ((s.stride / 4 : Nat) : Int)
  (0, [Event.beginFrame (frame_timestamp ts)] ++
      repaint_loop s acq damage (damage.y2 - damage.y1).toNat 0 ptr ++
      [Event.flush])

/-! ## The mode table -/

/-- The fields of `struct weston_mode` (without the list link). -/
structure weston_mode where
  flags : Nat
  width : Int
  height : Int
  refresh : Int
deriving DecidableEq

/-- The fields of `struct weston_output` the backend touches.  `heap` holds the
`struct weston_mode` objects allocated for this output, the address of a mode
being its index; `mode_list` is the `wl_list` of linked modes, head first. -/
structure weston_output where
  heap : List weston_mode
  mode_list : List Nat
  current_mode : Option Nat
  native_mode : Option Nat
  mm_width : Int
  mm_height : Int
deriving DecidableEq

/-- The fields of `struct rtpvideo_output` that carry state. -/
structure rtpvideo_output where
  base : weston_output
  shadow_surface : Option Surface
deriving DecidableEq

/-- The pixman operations the backend calls, as answered by the library:
`pixman_image_create_bits (format, width, height, NULL, rowstride)` and
`pixman_image_composite32 (PIXMAN_OP_SRC, src, 0, dest, 0,0,0,0,0,0, w, h)`,
the latter giving the destination image after the call. -/
structure Pixman where
  create_bits : pixman_format_code_t → Int → Int → Int → Option Surface
  composite32 : Option Surface → Option Surface → Int → Int → Option Surface

/-- Embedding of `rtpvideo_insert_new_mode`; `allocOk` tells whether `zalloc`
returned memory.  `wl_list_insert (&output->mode_list, &ret->link)` links the
new mode right after the list head. -/
def rtpvideo_insert_new_mode (output : weston_output) (width height rate : Int)
    (allocOk : Bool) : Option Nat × weston_output :=
  if allocOk then
    (some output.heap.length,
      { output with
        heap := output.heap ++ [{ flags := 0, width := width, height := height, refresh := rate }]
        mode_list := output.heap.length :: output.mode_list })
  else
    (none, output)

/-- The `wl_list_for_each` loop of `ensure_matching_mode`: the first linked mode
whose width and height equal the target's.  A link that is no allocated mode is
passed over. -/
def find_mode (heap : List weston_mode) (target : weston_mode) : List Nat → Option Nat
  | [] => none
  | l :: rest =>
    match heap[l]? with
    | some m =>
      if m.width = target.width ∧ m.height = target.height then some l
      else find_mode heap target rest
    | none => find_mode heap target rest

/-- Embedding of `ensure_matching_mode`: the mode returned (`none` for `NULL`)
and the output afterwards. -/
def ensure_matching_mode (output : weston_output) (target : weston_mode)
    (allocOk : Bool) : Option Nat × weston_output :=
  match find_mode output.heap target output.mode_list with
  | some l => (some l, output)
  | none => rtpvideo_insert_new_mode output target.width target.height REFRESH_FREQ allocOk

/-! ## Output life cycle -/

/-- The `switch(fmt)` that occurs in `rtpvideo_switch_mode` and in
`rtpvideo_output_enable`. -/
def pixman_format_of (fmt : RtpVideoTx_Format) : pixman_format_code_t :=
  match fmt with
  | RtpVideoTx_Format.RGBA_8bit => pixman_format_code_t.PIXMAN_a8b8g8r8
  | RtpVideoTx_Format.BGR_8bit => pixman_format_code_t.PIXMAN_r8g8b8
  | RtpVideoTx_Format.BGRA_8bit => pixman_format_code_t.PIXMAN_a8r8g8b8
  | RtpVideoTx_Format.RGB_8bit => pixman_format_code_t.PIXMAN_b8g8r8
  | RtpVideoTx_Format.other => pixman_format_code_t.PIXMAN_b8g8r8

/-- Effect of `mode->flags &= ~WL_OUTPUT_MODE_CURRENT` on a 32-bit flag word. -/
def clear_current (m : weston_mode) : weston_mode :=
  { m with flags := m.flags &&& (2 ^ 32 - 1 - WL_OUTPUT_MODE_CURRENT) }

/-- Effect of `mode->flags |= WL_OUTPUT_MODE_CURRENT`. -/
def set_current (m : weston_mode) : weston_mode :=
  { m with flags := m.flags ||| WL_OUTPUT_MODE_CURRENT }

/-- Store through a mode pointer: `none` when the pointer is no allocated mode. -/
def update_mode (heap : List weston_mode) (p : Nat) (f : weston_mode → weston_mode) :
    Option (List weston_mode) :=
  match heap[p]? with
  | some m => some (heap.set p (f m))
  | none => none

/-- The output right after `zalloc` and `weston_output_init`. -/
def fresh_output : rtpvideo_output :=
  { base := { heap := [], mode_list := [], current_mode := none, native_mode := none,
              mm_width := 0, mm_height := 0 }
    shadow_surface := none }

/-- Embedding of `rtpvideo_output_set_size`.  The result is `none` when the
`assert` fails (the process aborts). -/
def rtpvideo_output_set_size (output : rtpvideo_output) (width height : Int)
    (allocOk : Bool) : Option (Int × rtpvideo_output) :=
  match output.base.current_mode with
  | some _ => none
  | none =>
    let initMode : weston_mode :=
      { flags := WL_OUTPUT_MODE_CURRENT ||| WL_OUTPUT_MODE_PREFERRED
        width := width, height := height, refresh := REFRESH_FREQ }
    match ensure_matching_mode { output.base with mode_list := [] } initMode allocOk with
    | (none, base) => some (-1, { output with base := base })
    | (some currentMode, base) =>
      some (0, { output with
        base := { base with
          current_mode := some currentMode
          native_mode := some currentMode
          mm_width := width
          mm_height := height } })

/-- Embedding of `rtpvideo_output_enable`: return value, output afterwards and
calls made.  `rendererOk` tells whether `pixman_renderer_output_create`
succeeded.  The result is `none` when `current_mode` is dereferenced without
pointing to a mode. -/
def rtpvideo_output_enable (pix : Pixman) (output : rtpvideo_output)
    (fmt : RtpVideoTx_Format) (rendererOk : Bool) :
    Option (Int × rtpvideo_output × List Event) :=
  match output.base.current_mode with
  | none => none
  | some c =>
    match output.base.heap[c]? with
    | none => none
    | some cur =>
      let format := pixman_format_of fmt
      let created := Event.create_bits format cur.width cur.height (cur.width * 3)
      match pix.create_bits format cur.width cur.height (cur.width * 3) with
      | none =>
        some (-1, { output with shadow_surface := none }, [created, Event.weston_log])
      | some s =>
        if rendererOk then
          some (0, { output with shadow_surface := some s },
            [created, Event.renderer_output_create,
             Event.timer_add Timer.finish_frame, Event.timer_add Timer.redraw_frame,
             Event.timer_update Timer.redraw_frame 1000])
        else
          some (-1, { output with shadow_surface := some s },
            [created, Event.renderer_output_create, Event.image_unref])

/-- Embedding of `rtpvideo_switch_mode`: return value, output afterwards and
calls made.  `allocOk` tells whether `zalloc` returns memory and `fmt` is what
`RtpVideoTx_getVideoFormat` reports.  The result is `none` when `current_mode` is
dereferenced without pointing to a mode.  The result of
`pixman_image_create_bits` is not checked by the code; what pixman does with a
`NULL` image is left to `pix.composite32`. -/
def rtpvideo_switch_mode (pix : Pixman) (output : rtpvideo_output)
    (target_mode : weston_mode) (allocOk : Bool) (fmt : RtpVideoTx_Format) :
    Option (Int × rtpvideo_output × List Event) :=
  match ensure_matching_mode output.base target_mode allocOk with
  | (none, base) => some (-ENOENT, { output with base := base }, [Event.weston_log])
  | (some local_mode, base) =>
    if some local_mode = base.current_mode then
      some (0, { output with base := base }, [])
    else
      match base.current_mode with
      | none => none
      | some old =>
        match update_mode base.heap old clear_current with
        | none => none
        | some heap1 =>
          match update_mode heap1 local_mode set_current with
          | none => none
          | some heap2 =>
            let format := pixman_format_of fmt
            let new_shadow_buffer :=
              pix.create_bits format target_mode.width target_mode.height
                (target_mode.width * 3)
            some (0,
              { base := { base with heap := heap2, current_mode := some local_mode }
                shadow_surface :=
                  pix.composite32 output.shadow_surface new_shadow_buffer
                    target_mode.width target_mode.height },
              [Event.renderer_output_destroy, Event.renderer_output_create,
               Event.create_bits format target_mode.width target_mode.height
                 (target_mode.width * 3),
               Event.composite32 target_mode.width target_mode.height,
               Event.image_unref])

/-! ## Timer handlers -/

/-- Embedding of `rtpvideo_output_start_repaint_loop`; `ts` is the clock reading. -/
def rtpvideo_output_start_repaint_loop (ts : timespec) : List Event :=
  [Event.finish_frame ts WP_PRESENTATION_FEEDBACK_INVALID]

/-- Embedding of `finish_frame_handler`: return value and calls made; `ts` is
the clock reading. -/
def finish_frame_handler (ts : timespec) : Int × List Event :=
  (1, [Event.finish_frame ts 0])

/-- The damage region `redraw_frame_handler` builds. -/
def redraw_damage (output : rtpvideo_output) : pixman_box32 :=
  { x1 := 0, x2 := output.base.mm_width, y1 := 0, y2 := output.base.mm_height }

/-- Embedding of `redraw_frame_handler`: return value and calls made; `ts` is
the clock reading taken inside `rtpvideo_output_repaint`.  The result is `none`
when there is no shadow surface to read. -/
def redraw_frame_handler (output : rtpvideo_output) (acq : Nat → Bool) (ts : timespec) :
    Option (Int × List Event) :=
  match output.shadow_surface with
  | none => none
  | some s =>
    some (0, (rtpvideo_output_repaint s acq ts (redraw_damage output)).2 ++
      [Event.timer_update Timer.redraw_frame 1000])

/-! ## Reachable outputs and observations on traces -/

/-- Outputs the backend can be in once its size has been set: the result of a
successful `rtpvideo_output_set_size` on a fresh output, followed by any calls
of `rtpvideo_output_enable` and `rtpvideo_switch_mode` that return. -/
inductive Reachable (pix : Pixman) : rtpvideo_output → Prop where
  | set_size (width height : Int) (allocOk : Bool) (o : rtpvideo_output) :
      rtpvideo_output_set_size fresh_output width height allocOk = some (0, o) →
      Reachable pix o
  | enable (o : rtpvideo_output) (fmt : RtpVideoTx_Format) (rendererOk : Bool)
      (r : Int) (o2 : rtpvideo_output) (evs : List Event) :
      Reachable pix o →
      rtpvideo_output_enable pix o fmt rendererOk = some (r, o2, evs) →
      Reachable pix o2
  | switch_mode (o : rtpvideo_output) (target : weston_mode) (allocOk : Bool)
      (fmt : RtpVideoTx_Format) (r : Int) (o2 : rtpvideo_output) (evs : List Event) :
      Reachable pix o →
      rtpvideo_switch_mode pix o target allocOk fmt = some (r, o2, evs) →
      Reachable pix o2

/-- One submitted scanline: the arguments of `RtpVideoTx_addLine`. -/
structure Line where
  row : Int
  col : Int
  length : Nat
  buffer : List (Option Nat)
  flags : Nat
deriving DecidableEq

/-- The scanline of an `addLine` call. -/
def Event.line? : Event → Option Line
  | Event.addLine row col length buffer flags =>
    some { row := row, col := col, length := length, buffer := buffer, flags := flags }
  | _ => none

/-- The scanlines submitted in a trace, in submission order. -/
def submissions (tr : List Event) : List Line :=
  tr.filterMap Event.line?

/-- Whether an event is a `RtpVideoTx_beginFrame` call. -/
def Event.isBeginFrame : Event → Bool
  | Event.beginFrame _ => true
  | _ => false

/-- Whether an event is a `RtpVideoTx_flush` call. -/
def Event.isFlush : Event → Bool
  | Event.flush => true
  | _ => false

/-- Whether the mode at address `p` carries `WL_OUTPUT_MODE_CURRENT`. -/
def carries_current (o : weston_output) (p : Nat) : Bool :=
  match o.heap[p]? with
  | some m => m.flags &&& WL_OUTPUT_MODE_CURRENT != 0
  | none => false

/-- A damage box that lies inside the surface. -/
def inside (damage : pixman_box32) (s : Surface) : Prop :=
  0 ≤ damage.x1 ∧ damage.x2 ≤ s.width ∧ 0 ≤ damage.y1 ∧ damage.y2 ≤ s.height

/-- What holds of a surface that pixman allocated for a 3-bytes-per-pixel
format: each row has room for its pixels, the stride is an `int`, and the buffer
has `height` rows. -/
def Surface.wf (s : Surface) : Prop :=
  0 ≤ s.width ∧ 0 ≤ s.height ∧ 3 * s.width ≤ (s.stride : Int) ∧ s.stride < 2 ^ 31 ∧
  (s.data.length : Int) = (s.stride : Int) * s.height

/-- What holds of the mode table of every reachable output: the list links all
allocated modes, newest first; `current_mode` points to one of them; no two modes
have the same width and height; only the current mode can carry
`WL_OUTPUT_MODE_CURRENT`. -/
structure ModeInv (b : weston_output) : Prop where
  links : b.mode_list = (List.range b.heap.length).reverse
  current : ∃ c, b.current_mode = some c ∧ c < b.heap.length
  distinct : ∀ (p q : Nat) (mp mq : weston_mode), b.heap[p]? = some mp → b.heap[q]? = some mq →
    mp.width = mq.width → mp.height = mq.height → p = q
  flagged : ∀ (p : Nat) (m : weston_mode), b.heap[p]? = some m →
    m.flags &&& WL_OUTPUT_MODE_CURRENT ≠ 0 →
    b.current_mode = some p

/-- Bits per pixel of a pixman format. -/
def pixman_format_bpp : pixman_format_code_t → Int
  | pixman_format_code_t.PIXMAN_b8g8r8 => 24
  | pixman_format_code_t.PIXMAN_r8g8b8 => 24
  | pixman_format_code_t.PIXMAN_a8b8g8r8 => 32
  | pixman_format_code_t.PIXMAN_a8r8g8b8 => 32

/-- A pixman used for the concrete inputs below: `create_bits` allocates a zeroed
buffer whose rows are padded to whole 32-bit words, and `composite32` draws from
a blank source, so that the destination stays as allocated. -/
def pixman_blank : Pixman :=
  { create_bits := fun format width height _ =>
      some { format := format, width := width, height := height,
             stride := (((width * pixman_format_bpp format + 31) / 32) * 4).toNat,
             data := List.replicate
               ((((width * pixman_format_bpp format + 31) / 32) * 4).toNat * height.toNat) 0 }
    composite32 := fun _ dest _ _ => dest }

/-- The output after `rtpvideo_output_set_size (4, 2)` on a fresh output. -/
def output_sized : rtpvideo_output :=
  { base := { heap := [{ flags := 0, width := 4, height := 2, refresh := 60000 }],
              mode_list := [0], current_mode := some 0, native_mode := some 0,
              mm_width := 4, mm_height := 2 }
    shadow_surface := none }

/-- The output `output_sized` after `rtpvideo_output_enable`. -/
def output_enabled : rtpvideo_output :=
  { output_sized with
    shadow_surface := some { format := pixman_format_code_t.PIXMAN_b8g8r8, width := 4,
                             height := 2, stride := 12, data := List.replicate 24 0 } }

/-- The output `output_enabled` after `rtpvideo_switch_mode` to 2x1. -/
def output_switched : rtpvideo_output :=
  { base := { heap := [{ flags := 0, width := 4, height := 2, refresh := 60000 },
                       { flags := 1, width := 2, height := 1, refresh := 60000 }],
              mode_list := [1, 0], current_mode := some 1, native_mode := some 0,
              mm_width := 4, mm_height := 2 }
    shadow_surface := some { format := pixman_format_code_t.PIXMAN_b8g8r8, width := 2,
                             height := 1, stride := 8, data := List.replicate 8 0 } }

/-! ## Concrete inputs used below -/

/-- A 4x1 surface in a 3-bytes-per-pixel format; byte `i` of the buffer holds `i`. -/
def surface4x1 : Surface :=
  { format := pixman_format_code_t.PIXMAN_b8g8r8, width := 4, height := 1, stride := 12,
    data := [0, 1, 2, 3, 4, 5, 6, 7, 8, 9, 10, 11] }

/-- A 1x1 surface in a 3-bytes-per-pixel format (pixman pads the row to 4 bytes). -/
def surface1x1 : Surface :=
  { format := pixman_format_code_t.PIXMAN_b8g8r8, width := 1, height := 1, stride := 4,
    data := [10, 20, 30, 0] }

/-- A 640x480 surface in a 3-bytes-per-pixel format, all bytes zero. -/
def surface640x480 : Surface :=
  { format := pixman_format_code_t.PIXMAN_b8g8r8, width := 640, height := 480, stride := 1920,
    data := List.replicate (1920 * 480) 0 }

/-- A line-buffer oracle that never fails. -/
def acq_always : Nat → Bool := fun _ => true

/-! ## Theorems -/

/-- C9 (evaluation of the code): the timestamp handed to `beginFrame` is not the
clock reading quantized to 25 units per second.  At 0 s + 40000000 ns it is 1000
(25 units per second give 1); at 0 s + 999999999 ns the sub-second part is 24999,
which is not below 25; and the later reading 1 s + 0 ns gives the smaller
timestamp 25. -/
theorem frame_timestamp_divides_nsec_by_40000 :
    frame_timestamp { tv_sec := 0, tv_nsec := 40000000 } = 1000 ∧
    frame_timestamp { tv_sec := 0, tv_nsec := 999999999 } = 24999 ∧
    frame_timestamp { tv_sec := 1, tv_nsec := 0 } = 25 ∧
    (rtpvideo_output_repaint surface1x1 acq_always { tv_sec := 0, tv_nsec := 40000000 }
      { x1 := 0, y1 := 0, x2 := 0, y2 := 0 }).2 = [Event.beginFrame 1000, Event.flush] := by
  decide

/-- C7 (the claim fails as stated): at the clock reading 5 s + 0 ns
`finish_frame_handler` reports the frame with status 0, which is not the
`WP_PRESENTATION_FEEDBACK_INVALID` status that
`rtpvideo_output_start_repaint_loop` reports. -/
theorem finish_frame_handler_status_differs :
    (finish_frame_handler { tv_sec := 5, tv_nsec := 0 }).2 =
      [Event.finish_frame { tv_sec := 5, tv_nsec := 0 } 0] ∧
    rtpvideo_output_start_repaint_loop { tv_sec := 5, tv_nsec := 0 } =
      [Event.finish_frame { tv_sec := 5, tv_nsec := 0 } WP_PRESENTATION_FEEDBACK_INVALID] ∧
    (finish_frame_handler { tv_sec := 5, tv_nsec := 0 }).2 ≠
      rtpvideo_output_start_repaint_loop { tv_sec := 5, tv_nsec := 0 } := by
  decide

/-- C7 (amended): every fire of `finish_frame_handler` makes exactly one call,
the frame-finished report carrying the clock reading and status 0, a status in
which the `WP_PRESENTATION_FEEDBACK_INVALID` bit that
`rtpvideo_output_start_repaint_loop` reports is not set; it makes no
`wl_event_source_timer_update` call. -/
theorem finish_frame_handler_reports_once (ts : timespec) :
    (∃ status, (finish_frame_handler ts).2 = [Event.finish_frame ts status] ∧
      status = 0 ∧ status &&& WP_PRESENTATION_FEEDBACK_INVALID = 0 ∧
      rtpvideo_output_start_repaint_loop ts =
        [Event.finish_frame ts WP_PRESENTATION_FEEDBACK_INVALID] ∧
      status ≠ WP_PRESENTATION_FEEDBACK_INVALID) ∧
    (∀ t ms, Event.timer_update t ms ∉ (finish_frame_handler ts).2) := by
  refine ⟨⟨0, rfl, rfl, by decide, rfl, by decide⟩, ?_⟩
  intro t ms h
  simp [finish_frame_handler] at h

/-- C3 (evaluation of the code): on the 4x1 surface, for the damage region
(1,0)-(2,1), the buffer submitted for row 0 holds the bytes at offsets 4, 5, 6 of
the surface buffer, while pixel (1,0) of the 3-bytes-per-pixel buffer is the
bytes at offsets 3, 4, 5. -/
theorem repaint_copies_from_word_offset :
    submissions (rtpvideo_output_repaint surface4x1 acq_always { tv_sec := 0, tv_nsec := 0 }
      { x1 := 1, y1 := 0, x2 := 2, y2 := 1 }).2 =
      [{ row := 0, col := 1, length := 3, buffer := [some 4, some 5, some 6], flags := 1 }] ∧
    (List.range 3).map (fun i => surface4x1.data[0 * surface4x1.stride + 3 * 1 + i]?) =
      [some 3, some 4, some 5] := by
  decide

/-- C8 (the claim fails as stated): on the 1x1 surface the damage region
(0,0)-(2,2) is not clamped; rows 0 and 1 are submitted with 6 bytes each (columns
0 and 1), row 1 lies outside the surface, and bytes are read past the end of the
4-byte buffer. -/
theorem repaint_does_not_clamp :
    submissions (rtpvideo_output_repaint surface1x1 acq_always { tv_sec := 0, tv_nsec := 0 }
      { x1 := 0, y1 := 0, x2 := 2, y2 := 2 }).2 =
      [{ row := 0, col := 0, length := 6,
         buffer := [some 10, some 20, some 30, some 0, none, none], flags := 0 },
       { row := 1, col := 0, length := 6,
         buffer := [none, none, none, none, none, none], flags := 1 }] ∧
    surface1x1.width = 1 ∧ surface1x1.height = 1 ∧ surface1x1.data.length = 4 := by
  decide

/-! ### The mode table -/

theorem find_mode_some (heap : List weston_mode) (t : weston_mode) (l : List Nat) (q : Nat)
    (h : find_mode heap t l = some q) :
    q ∈ l ∧ ∃ m, heap[q]? = some m ∧ m.width = t.width ∧ m.height = t.height := by
  induction l with
  | nil => simp [find_mode] at h
  | cons p rest ih =>
    unfold find_mode at h
    cases hp : heap[p]? with
    | none =>
      rw [hp] at h
      have := ih h
      exact ⟨List.mem_cons_of_mem _ this.1, this.2⟩
    | some m =>
      rw [hp] at h
      by_cases hm : m.width = t.width ∧ m.height = t.height
      · simp only [hm, and_self, if_true, Option.some.injEq] at h
        subst h
        exact ⟨List.mem_cons_self _ _, m, hp, hm.1, hm.2⟩
      · simp only [hm, if_false] at h
        have := ih h
        exact ⟨List.mem_cons_of_mem _ this.1, this.2⟩

theorem find_mode_none (heap : List weston_mode) (t : weston_mode) (l : List Nat)
    (h : find_mode heap t l = none) :
    ∀ p ∈ l, ∀ m, heap[p]? = some m → ¬ (m.width = t.width ∧ m.height = t.height) := by
  induction l with
  | nil => intro p hp; simp at hp
  | cons a rest ih =>
    unfold find_mode at h
    intro p hp m hm
    cases ha : heap[a]? with
    | none =>
      rw [ha] at h
      rcases List.mem_cons.1 hp with rfl | hp2
      · rw [ha] at hm; cases hm
      · exact ih h p hp2 m hm
    | some ma =>
      rw [ha] at h
      by_cases hma : ma.width = t.width ∧ ma.height = t.height
      · simp [hma] at h
      · simp only [hma, if_false] at h
        rcases List.mem_cons.1 hp with rfl | hp2
        · rw [ha] at hm
          cases hm
          exact hma
        · exact ih h p hp2 m hm

/-- C5 (the claim fails as stated): asked for 640x480 at refresh 30000 on an empty
mode table, `ensure_matching_mode` inserts a 640x480 mode whose refresh is 60000;
no mode with refresh 30000 is in the table afterwards. -/
theorem ensure_matching_mode_ignores_requested_refresh :
    ensure_matching_mode fresh_output.base
        { flags := 0, width := 640, height := 480, refresh := 30000 } true =
      (some 0,
        { heap := [{ flags := 0, width := 640, height := 480, refresh := 60000 }],
          mode_list := [0], current_mode := none, native_mode := none,
          mm_width := 0, mm_height := 0 }) ∧
    ∀ m ∈ (ensure_matching_mode fresh_output.base
        { flags := 0, width := 640, height := 480, refresh := 30000 } true).2.heap,
      m.refresh ≠ 30000 := by
  decide

/-- C5 (amended): on a mode table whose links all point to allocated modes,
`ensure_matching_mode` returns a linked mode whose width and height equal the
requested ones, whatever its refresh, and leaves the output unchanged when such a
mode exists.  When none exists and the allocation succeeds it links exactly one
new mode, at the head of the list, carrying the requested width and height, the
fixed refresh `REFRESH_FREQ` and no flags, returns it, and changes no mode that
was linked before; when the allocation fails it returns `NULL` and leaves the
output unchanged. -/
theorem ensure_matching_mode_resolves (output : weston_output) (target : weston_mode)
    (allocOk : Bool) (hlinks : ∀ p ∈ output.mode_list, p < output.heap.length) :
    ((∃ p ∈ output.mode_list, ∃ m, output.heap[p]? = some m ∧
        m.width = target.width ∧ m.height = target.height) →
      ∃ l ∈ output.mode_list, ∃ m, output.heap[l]? = some m ∧
        m.width = target.width ∧ m.height = target.height ∧
        ensure_matching_mode output target allocOk = (some l, output)) ∧
    ((¬ ∃ p ∈ output.mode_list, ∃ m, output.heap[p]? = some m ∧
        m.width = target.width ∧ m.height = target.height) →
      (allocOk = true →
        ∃ l out, ensure_matching_mode output target allocOk = (some l, out) ∧
          l ∉ output.mode_list ∧
          out.mode_list = l :: output.mode_list ∧
          out.heap[l]? = some { flags := 0, width := target.width, height := target.height,
                                refresh := REFRESH_FREQ } ∧
          (∀ p ∈ output.mode_list, out.heap[p]? = output.heap[p]?) ∧
          out.current_mode = output.current_mode ∧ out.native_mode = output.native_mode ∧
          out.mm_width = output.mm_width ∧ out.mm_height = output.mm_height) ∧
      (allocOk = false → ensure_matching_mode output target allocOk = (none, output))) := by
  constructor
  · rintro ⟨p, hp, m, hm, hw, hh⟩
    cases hf : find_mode output.heap target output.mode_list with
    | none => exact absurd ⟨hw, hh⟩ (find_mode_none _ _ _ hf p hp m hm)
    | some l =>
      obtain ⟨hl, m2, hm2, hw2, hh2⟩ := find_mode_some _ _ _ _ hf
      refine ⟨l, hl, m2, hm2, hw2, hh2, ?_⟩
      simp [ensure_matching_mode, hf]
  · intro hno
    have hf : find_mode output.heap target output.mode_list = none := by
      cases hf : find_mode output.heap target output.mode_list with
      | none => rfl
      | some l =>
        obtain ⟨hl, m2, hm2, hw2, hh2⟩ := find_mode_some _ _ _ _ hf
        exact absurd ⟨l, hl, m2, hm2, hw2, hh2⟩ hno
    constructor
    · intro ha
      subst ha
      refine ⟨output.heap.length,
        { output with
          heap := output.heap ++ [{ flags := 0, width := target.width, height := target.height,
                                    refresh := REFRESH_FREQ }]
          mode_list := output.heap.length :: output.mode_list },
        ?_, ?_, rfl, ?_, ?_, rfl, rfl, rfl, rfl⟩
      · simp [ensure_matching_mode, hf, rtpvideo_insert_new_mode]
      · intro hmem
        exact absurd (hlinks _ hmem) (lt_irrefl _)
      · simp
      · intro p hp
        simp [List.getElem?_append_left (hlinks p hp)]
    · intro ha
      subst ha
      simp [ensure_matching_mode, hf, rtpvideo_insert_new_mode]

/-- C5 (amended), at a concrete input: a table holding one 640x480 mode, asked
for 800x600 at refresh 30000. -/
theorem ensure_matching_mode_resolves_witness :
    (∀ p ∈ [0], p < [({ flags := 0, width := 640, height := 480, refresh := 60000 } :
        weston_mode)].length) ∧
    ∃ l out, ensure_matching_mode
        { heap := [{ flags := 0, width := 640, height := 480, refresh := 60000 }],
          mode_list := [0], current_mode := some 0, native_mode := some 0,
          mm_width := 640, mm_height := 480 }
        { flags := 0, width := 800, height := 600, refresh := 30000 } true = (some l, out) ∧
      out.mode_list = [l, 0] ∧
      out.heap[l]? = some { flags := 0, width := 800, height := 600, refresh := 60000 } := by
  refine ⟨by decide, ?_⟩
  obtain ⟨l, out, h1, _, h3, h4, _⟩ :=
    (ensure_matching_mode_resolves
      { heap := [{ flags := 0, width := 640, height := 480, refresh := 60000 }],
        mode_list := [0], current_mode := some 0, native_mode := some 0,
        mm_width := 640, mm_height := 480 }
      { flags := 0, width := 800, height := 600, refresh := 30000 } true (by decide)).2
      (by simp) |>.1 rfl
  exact ⟨l, out, h1, h3, h4⟩

/-! ### The scanline encoder -/

/-- Once the loop condition is false the loop makes no call. -/
theorem repaint_loop_stop (s : Surface) (acq : Nat → Bool) (d : pixman_box32)
    (fuel y : Nat) (ptr : Int) (h : ¬ ((y : Int) < d.y2 - d.y1)) :
    repaint_loop s acq d fuel y ptr = [] := by
  cases fuel with
  | zero => rfl
  | succ f => simp [repaint_loop, h]

/-- The iteration bound given to the loop is enough: with `fuel` iterations the
loop runs until its condition is false, more iterations change nothing. -/
theorem repaint_loop_fuel (s : Surface) (acq : Nat → Bool) (d : pixman_box32)
    (fuel k : Nat) : ∀ (y : Nat) (ptr : Int), d.y2 - d.y1 ≤ (y : Int) + fuel →
    repaint_loop s acq d (fuel + k) y ptr = repaint_loop s acq d fuel y ptr := by
  induction fuel with
  | zero =>
    intro y ptr h
    rw [repaint_loop_stop s acq d _ y ptr (by simp at h; omega)]
    rfl
  | succ f ih =>
    intro y ptr h
    have e : f + 1 + k = (f + k) + 1 := by omega
    rw [e]
    unfold repaint_loop
    by_cases hc : (y : Int) < d.y2 - d.y1
    · simp only [hc, if_true]
      rw [ih (y + 1) _ (by push_cast at h ⊢; omega)]
    · simp only [hc, if_false]

/-- The loop makes no `beginFrame` and no `flush` call. -/
theorem repaint_loop_no_framing (s : Surface) (acq : Nat → Bool) (d : pixman_box32)
    (fuel : Nat) : ∀ (y : Nat) (ptr : Int), ∀ e ∈ repaint_loop s acq d fuel y ptr,
    e.isBeginFrame = false ∧ e.isFlush = false := by
  induction fuel with
  | zero => intro y ptr e he; simp [repaint_loop] at he
  | succ f ih =>
    intro y ptr e he
    unfold repaint_loop at he
    by_cases hc : (y : Int) < d.y2 - d.y1
    · simp only [hc, if_true, List.cons_append, List.mem_cons, List.mem_append] at he
      rcases he with rfl | he | he
      · exact ⟨rfl, rfl⟩
      · by_cases ha : acq y = true
        · simp only [ha, if_true, List.mem_singleton] at he
          subst he
          exact ⟨rfl, rfl⟩
        · simp only [ha, List.mem_singleton] at he
          simp only [Bool.false_eq_true, if_false, List.mem_singleton] at he
          subst he
          exact ⟨rfl, rfl⟩
      · exact ih _ _ e he
    · simp [hc] at he

/-- The scanlines the loop submits: one for each iteration whose line buffer was
acquired, read `ptr0 + y * (stride / 4)` words into the surface. -/
theorem repaint_loop_submissions (s : Surface) (acq : Nat → Bool) (d : pixman_box32)
    (ptr0 : Int) (fuel : Nat) : ∀ (y : Nat),
    (fuel = 0 ∨ (y : Int) + fuel ≤ d.y2 - d.y1) →
    submissions (repaint_loop s acq d fuel y (ptr0 + (y : Int) * ((s.stride / 4 : Nat) : Int))) =
      ((List.range' y fuel).filter acq).map (fun (i : Nat) =>
        ({ row := d.y1 + (i : Int), col := d.x1, length := line_length d,
           buffer := memcpy s (ptr0 + (i : Int) * ((s.stride / 4 : Nat) : Int)) (line_length d),
           flags := line_flags d i } : Line)) := by
  induction fuel with
  | zero => intro y _; simp [repaint_loop, submissions]
  | succ f ih =>
    intro y h
    have hc : (y : Int) < d.y2 - d.y1 := by
      rcases h with h | h
      · omega
      · push_cast at h; omega
    have hnext : ptr0 + (y : Int) * ((s.stride / 4 : Nat) : Int) + ((s.stride / 4 : Nat) : Int) =
        ptr0 + ((y + 1 : Nat) : Int) * ((s.stride / 4 : Nat) : Int) := by
      push_cast; ring
    have ih2 := ih (y + 1) (Or.inr (by rcases h with h | h <;> [omega; (push_cast at h ⊢; omega)]))
    unfold repaint_loop
    simp only [hc, if_true]
    rw [hnext]
    unfold submissions at ih2 ⊢
    rw [List.range'_succ, List.filterMap_append, ih2]
    by_cases ha : acq y = true
    · simp [ha, List.filter_cons, Event.line?]
    · simp [ha, List.filter_cons, Event.line?]

/-- The scanlines one call of `rtpvideo_output_repaint` submits. -/
theorem repaint_submissions (s : Surface) (acq : Nat → Bool) (ts : timespec)
    (d : pixman_box32) :
    submissions (rtpvideo_output_repaint s acq ts d).2 =
      ((List.range (d.y2 - d.y1).toNat).filter acq).map (fun (i : Nat) =>
        ({ row := d.y1 + (i : Int), col := d.x1, length := line_length d,
           buffer := memcpy s (d.x1 + d.y1 * ((s.stride / 4 : Nat) : Int) +
             (i : Int) * ((s.stride / 4 : Nat) : Int)) (line_length d),
           flags := line_flags d i } : Line)) := by
  have h := repaint_loop_submissions s acq d (d.x1 + d.y1 * ((s.stride / 4 : Nat) : Int))
    (d.y2 - d.y1).toNat 0 (by
      by_cases hle : d.y2 - d.y1 ≤ 0
      · left; omega
      · right; push_cast; omega)
  simp only [Nat.cast_zero, zero_mul, add_zero] at h
  unfold rtpvideo_output_repaint
  simp only [submissions, List.filterMap_append] at h ⊢
  rw [h, List.range_eq_range']
  simp [Event.line?]

/-- C1: for a damage region with x1 <= x2 and y1 < y2 inside a well-formed
surface, when every line buffer is acquired, `rtpvideo_output_repaint` submits
exactly y2 - y1 scanlines, for the rows y1, y1+1, ..., y2-1 in that strictly
increasing order, each at column x1 with (x2 - x1)*3 bytes, and the last-line flag
is 1 on row y2-1 and 0 on every other row. -/
theorem repaint_submits_every_row_in_order (s : Surface) (acq : Nat → Bool) (ts : timespec)
    (d : pixman_box32) (hs : s.wf) (hin : inside d s) (hx : d.x1 ≤ d.x2) (hy : d.y1 < d.y2)
    (hacq : ∀ y, acq y = true) :
    (submissions (rtpvideo_output_repaint s acq ts d).2).map
        (fun l => (l.row, l.col, l.length, l.flags)) =
      (List.range (d.y2 - d.y1).toNat).map (fun (i : Nat) =>
        (d.y1 + (i : Int), d.x1, ((d.x2 - d.x1) * 3).toNat,
          if d.y1 + (i : Int) = d.y2 - 1 then 1 else 0)) ∧
    (submissions (rtpvideo_output_repaint s acq ts d).2).length = (d.y2 - d.y1).toNat ∧
    List.Pairwise (fun a b => a < b)
      ((submissions (rtpvideo_output_repaint s acq ts d).2).map Line.row) ∧
    ((submissions (rtpvideo_output_repaint s acq ts d).2).map
        (fun l => (l.row, l.flags))).getLast? = some (d.y2 - 1, 1) := by
  have hall : (List.range (d.y2 - d.y1).toNat).filter acq = List.range (d.y2 - d.y1).toNat :=
    List.filter_eq_self.2 (fun a _ => hacq a)
  have hlen : line_length d = ((d.x2 - d.x1) * 3).toNat := by
    obtain ⟨_, hx2, _, _⟩ := hin
    obtain ⟨_, _, hw, hst, _⟩ := hs
    unfold line_length
    have hst2 : (s.stride : Int) < 2147483648 := by
      have : s.stride < 2147483648 := by simpa using hst
      exact_mod_cast this
    rw [Int.emod_eq_of_lt (by omega) (by norm_num; omega)]
  rw [repaint_submissions, hall]
  refine ⟨?_, by simp, ?_, ?_⟩
  · rw [List.map_map]
    apply List.map_congr_left
    intro i _
    simp only [Function.comp, hlen, line_flags, Prod.mk.injEq, true_and]
    by_cases hi : (i : Int) = d.y2 - d.y1 - 1
    · rw [if_pos hi, if_pos (by omega)]
    · rw [if_neg hi, if_neg (by omega)]
  · rw [List.map_map, List.pairwise_map]
    refine (List.pairwise_lt_range _).imp ?_
    intro a b hab
    simp only [Function.comp]
    omega
  · obtain ⟨k, hk⟩ : ∃ k, (d.y2 - d.y1).toNat = k + 1 := ⟨(d.y2 - d.y1).toNat - 1, by omega⟩
    have hk2 : (k : Int) = d.y2 - d.y1 - 1 := by omega
    rw [hk, List.range_succ]
    simp only [List.map_append, List.map_cons, List.map_nil, List.getLast?_append,
      List.getLast?_singleton, line_flags, hk2, if_true]
    simp
    omega

/-- C1 at the region (0,0)-(640,480) of the 640x480 surface: 480 submissions,
each at column 0 with 1920 bytes, the flag set exactly on row 479. -/
theorem repaint_submits_every_row_in_order_witness :
    (submissions (rtpvideo_output_repaint surface640x480 acq_always
      { tv_sec := 0, tv_nsec := 0 } { x1 := 0, y1 := 0, x2 := 640, y2 := 480 }).2).length = 480 ∧
    ∀ l ∈ submissions (rtpvideo_output_repaint surface640x480 acq_always
      { tv_sec := 0, tv_nsec := 0 } { x1 := 0, y1 := 0, x2 := 640, y2 := 480 }).2,
      l.col = 0 ∧ l.length = 1920 ∧ 0 ≤ l.row ∧ l.row < 480 ∧ (l.flags = 1 ↔ l.row = 479) := by
  have hwf : surface640x480.wf := by
    refine ⟨by decide, by decide, by decide, by decide, ?_⟩
    show ((List.replicate (1920 * 480) 0).length : Int) = ((1920 : Nat) : Int) * 480
    rw [List.length_replicate]
    norm_num
  have h := repaint_submits_every_row_in_order surface640x480 acq_always
    { tv_sec := 0, tv_nsec := 0 } { x1 := 0, y1 := 0, x2 := 640, y2 := 480 } hwf
    ⟨by decide, by decide, by decide, by decide⟩ (by decide) (by decide) (fun _ => rfl)
  refine ⟨by simpa using h.2.1, ?_⟩
  intro l hl
  have hmem := List.mem_map_of_mem (fun l => (l.row, l.col, l.length, l.flags)) hl
  rw [h.1] at hmem
  simp only [List.mem_map, List.mem_range, Prod.mk.injEq] at hmem
  obtain ⟨i, hi, h1, h2, h3, h4⟩ := hmem
  simp only [sub_zero, zero_add] at hi h1 h2 h3 h4
  have hi2 : i < 480 := by simpa using hi
  refine ⟨h2.symm, ?_, by omega, by omega, ?_⟩
  · rw [← h3]; rfl
  · rw [← h4, ← h1]
    by_cases hc : (i : Int) = 479
    · simp [hc]
    · simp [hc]

/-- C2: whatever set F of rows fails to get a line buffer, one call of
`rtpvideo_output_repaint` returns 0 and its calls are one `beginFrame`, then the
calls of the loop, none of which is a `beginFrame` or a `flush`, then one `flush`;
the rows submitted are the rows of [y1, y2) not in F, in increasing order, and a
submitted row carries the last-line flag exactly when it is row y2-1. -/
theorem repaint_frames_once_and_skips_failed_rows (s : Surface) (ts : timespec)
    (d : pixman_box32) (F : Int → Bool) :
    (rtpvideo_output_repaint s (fun y => !F (d.y1 + (y : Int))) ts d).1 = 0 ∧
    ∃ body,
      (rtpvideo_output_repaint s (fun y => !F (d.y1 + (y : Int))) ts d).2 =
        Event.beginFrame (frame_timestamp ts) :: body ++ [Event.flush] ∧
      (∀ e ∈ body, e.isBeginFrame = false ∧ e.isFlush = false) ∧
      (submissions body).map (fun l => (l.row, l.flags)) =
        (((List.range (d.y2 - d.y1).toNat).map (fun (i : Nat) => d.y1 + (i : Int))).filter
          (fun r => !F r)).map (fun r => (r, if r = d.y2 - 1 then 1 else 0)) ∧
      List.Pairwise (fun a b => a < b) ((submissions body).map Line.row) := by
  refine ⟨rfl, repaint_loop s (fun y => !F (d.y1 + (y : Int))) d (d.y2 - d.y1).toNat 0
    (d.x1 + d.y1 * ((s.stride / 4 : Nat) : Int)), rfl, repaint_loop_no_framing _ _ _ _ _ _, ?_⟩
  have hsub := repaint_submissions s (fun y => !F (d.y1 + (y : Int))) ts d
  have hbody : submissions (rtpvideo_output_repaint s (fun y => !F (d.y1 + (y : Int))) ts d).2 =
      submissions (repaint_loop s (fun y => !F (d.y1 + (y : Int))) d (d.y2 - d.y1).toNat 0
        (d.x1 + d.y1 * ((s.stride / 4 : Nat) : Int))) := by
    simp [rtpvideo_output_repaint, submissions, List.filterMap_append, Event.line?]
  rw [← hbody, hsub]
  constructor
  · rw [List.filter_map, List.map_map, List.map_map]
    apply List.map_congr_left
    intro i _
    simp only [Function.comp, line_flags, Prod.mk.injEq, true_and]
    by_cases hi : (i : Int) = d.y2 - d.y1 - 1
    · rw [if_pos hi, if_pos (by omega)]
    · rw [if_neg hi, if_neg (by omega)]
  · rw [List.map_map, List.pairwise_map]
    refine ((List.pairwise_lt_range _).sublist (List.filter_sublist _)).imp ?_
    intro a b hab
    simp only [Function.comp]
    omega

/-- A read inside the buffer yields a byte. -/
theorem read_byte_isSome (s : Surface) (off : Int) (h0 : 0 ≤ off)
    (h1 : off < (s.data.length : Int)) : (read_byte s off).isSome = true := by
  unfold read_byte
  rw [if_pos h0]
  have h2 : off.toNat < s.data.length := by omega
  rw [List.getElem?_eq_getElem h2]
  rfl

/-- C8 (amended): `rtpvideo_output_repaint` does not clamp, it uses the region as
given.  For a damage region with x1 <= x2 that lies inside a well-formed surface,
every submitted scanline has a row index in [0, height) and a column range inside
[0, width]; and when the region starts at column 0, every byte read from the
shadow surface lies inside its stride x height buffer. -/
theorem repaint_stays_inside_for_inside_regions (s : Surface) (acq : Nat → Bool)
    (ts : timespec) (d : pixman_box32) (hs : s.wf) (hin : inside d s) (hx : d.x1 ≤ d.x2) :
    ∀ l ∈ submissions (rtpvideo_output_repaint s acq ts d).2,
      0 ≤ l.row ∧ l.row < s.height ∧ 0 ≤ l.col ∧ 3 * l.col + (l.length : Int) ≤ 3 * s.width ∧
      (d.x1 = 0 → ∀ b ∈ l.buffer, b.isSome = true) := by
  obtain ⟨hx1, hx2, hy1, hy2⟩ := hin
  obtain ⟨_, _, hw, hst, hdata⟩ := hs
  have hst2 : (s.stride : Int) < 2147483648 := by
    have : s.stride < 2147483648 := by simpa using hst
    exact_mod_cast this
  have hlen : line_length d = ((d.x2 - d.x1) * 3).toNat := by
    unfold line_length
    rw [Int.emod_eq_of_lt (by omega) (by norm_num; omega)]
  intro l hl
  rw [repaint_submissions] at hl
  simp only [List.mem_map, List.mem_filter, List.mem_range] at hl
  obtain ⟨i, ⟨hi, _⟩, rfl⟩ := hl
  refine ⟨by show 0 ≤ d.y1 + (i : Int); omega, by show d.y1 + (i : Int) < s.height; omega,
    hx1, ?_, ?_⟩
  · show 3 * d.x1 + (line_length d : Int) ≤ 3 * s.width
    rw [hlen]
    omega
  · intro h0 b hb
    unfold memcpy at hb
    obtain ⟨j, hj, rfl⟩ := List.mem_map.1 hb
    rw [hlen] at hj
    have hj1 := List.mem_range.1 hj
    have hj0 : (0 : Int) ≤ (j : Int) := Int.natCast_nonneg _
    have hw4 : 4 * ((s.stride / 4 : Nat) : Int) ≤ (s.stride : Int) := by
      have : 4 * (s.stride / 4) ≤ s.stride := Nat.mul_div_le _ _
      exact_mod_cast this
    have hq0 : (0 : Int) ≤ ((s.stride / 4 : Nat) : Int) := Int.natCast_nonneg _
    have hr0 : 0 ≤ d.y1 + (i : Int) := by omega
    have hr1 : d.y1 + (i : Int) ≤ s.height - 1 := by omega
    have hm1 : 0 ≤ (d.y1 + (i : Int)) * ((s.stride / 4 : Nat) : Int) := mul_nonneg hr0 hq0
    have hm2 : (d.y1 + (i : Int)) * (4 * ((s.stride / 4 : Nat) : Int)) ≤
        (s.height - 1) * (s.stride : Int) :=
      mul_le_mul hr1 hw4 (by omega) (by omega)
    apply read_byte_isSome
    · rw [h0]
      nlinarith
    · rw [hdata, h0]
      have hj2 : (j : Int) < (s.stride : Int) := by omega
      nlinarith

/-- C8 (amended) at the region (0,0)-(4,1) of the 4x1 surface. -/
theorem repaint_stays_inside_for_inside_regions_witness :
    surface4x1.wf ∧
    inside { x1 := 0, y1 := 0, x2 := 4, y2 := 1 } surface4x1 ∧
    ∀ l ∈ submissions (rtpvideo_output_repaint surface4x1 acq_always
        { tv_sec := 0, tv_nsec := 0 } { x1 := 0, y1 := 0, x2 := 4, y2 := 1 }).2,
      0 ≤ l.row ∧ l.row < 1 ∧ 0 ≤ l.col ∧ 3 * l.col + (l.length : Int) ≤ 3 * 4 ∧
      ∀ b ∈ l.buffer, b.isSome = true := by
  have hwf : surface4x1.wf := by
    unfold Surface.wf
    decide
  have hin : inside { x1 := 0, y1 := 0, x2 := 4, y2 := 1 } surface4x1 := by
    unfold inside
    decide
  refine ⟨hwf, hin, ?_⟩
  intro l hl
  obtain ⟨h1, h2, h3, h4, h5⟩ := repaint_stays_inside_for_inside_regions surface4x1 acq_always
    { tv_sec := 0, tv_nsec := 0 } { x1 := 0, y1 := 0, x2 := 4, y2 := 1 } hwf hin (by decide) l hl
  exact ⟨h1, h2, h3, h4, h5 rfl⟩

/-! ### Reachable outputs -/

theorem mem_links (b : weston_output) (hb : ModeInv b) (p : Nat) :
    p ∈ b.mode_list ↔ p < b.heap.length := by
  rw [hb.links, List.mem_reverse, List.mem_range]

theorem clear_current_flags (m : weston_mode) :
    (clear_current m).flags &&& WL_OUTPUT_MODE_CURRENT = 0 := by
  show (m.flags &&& (2 ^ 32 - 1 - 1)) &&& 1 = 0
  rw [Nat.and_assoc]
  have h : (2 ^ 32 - 1 - 1) &&& 1 = 0 := by decide
  rw [h]
  simp

theorem set_current_flags (m : weston_mode) :
    (set_current m).flags &&& WL_OUTPUT_MODE_CURRENT ≠ 0 := by
  show (m.flags ||| 1) &&& 1 ≠ 0
  rw [Nat.and_one_is_mod]
  simp [Nat.or_mod_two_eq_one]

/-- What `ensure_matching_mode` does to an output that satisfies the invariant. -/
theorem ensure_matching_mode_inv (b : weston_output) (t : weston_mode) (a : Bool)
    (hb : ModeInv b) :
    ModeInv (ensure_matching_mode b t a).2 ∧
    (ensure_matching_mode b t a).2.current_mode = b.current_mode ∧
    (ensure_matching_mode b t a).2.mm_width = b.mm_width ∧
    (ensure_matching_mode b t a).2.mm_height = b.mm_height ∧
    ((ensure_matching_mode b t a).1 = none → (ensure_matching_mode b t a).2 = b) ∧
    (∀ l, (ensure_matching_mode b t a).1 = some l →
      ∃ m, (ensure_matching_mode b t a).2.heap[l]? = some m ∧
        m.width = t.width ∧ m.height = t.height) := by
  unfold ensure_matching_mode
  cases hf : find_mode b.heap t b.mode_list with
  | some l =>
    refine ⟨hb, rfl, rfl, rfl, fun _ => rfl, ?_⟩
    intro l2 hl2
    have : l = l2 := Option.some.inj hl2
    subst this
    exact (find_mode_some _ _ _ _ hf).2
  | none =>
    cases a with
    | false =>
      refine ⟨hb, rfl, rfl, rfl, fun _ => rfl, ?_⟩
      intro l hl
      simp [rtpvideo_insert_new_mode] at hl
    | true =>
      have hnone := find_mode_none _ _ _ hf
      have e : rtpvideo_insert_new_mode b t.width t.height REFRESH_FREQ true =
          (some b.heap.length,
            { b with
              heap := b.heap ++ [{ flags := 0, width := t.width, height := t.height,
                                   refresh := REFRESH_FREQ }]
              mode_list := b.heap.length :: b.mode_list }) := rfl
      rw [e]
      refine ⟨?_, rfl, rfl, rfl, ?_, ?_⟩
      · constructor
        · show b.heap.length :: b.mode_list = (List.range (b.heap ++ [_]).length).reverse
          rw [hb.links]
          simp [List.range_succ]
        · obtain ⟨c, hc, hlt⟩ := hb.current
          refine ⟨c, hc, ?_⟩
          show c < (b.heap ++ [_]).length
          simp
          omega
        · intro p q mp mq hp hq hw hh
          simp only [List.getElem?_append] at hp hq
          by_cases hpl : p < b.heap.length
          · rw [if_pos hpl] at hp
            by_cases hql : q < b.heap.length
            · rw [if_pos hql] at hq
              exact hb.distinct p q mp mq hp hq hw hh
            · rw [if_neg hql] at hq
              have hq0 : q - b.heap.length = 0 := by
                cases hk : q - b.heap.length with
                | zero => rfl
                | succ k => rw [hk] at hq; simp at hq
              rw [hq0] at hq
              simp only [List.getElem?_cons_zero, Option.some.injEq] at hq
              subst hq
              exact absurd ⟨hw, hh⟩ (hnone p ((mem_links b hb p).2 hpl) mp hp)
          · rw [if_neg hpl] at hp
            have hp0 : p - b.heap.length = 0 := by
              cases hk : p - b.heap.length with
              | zero => rfl
              | succ k => rw [hk] at hp; simp at hp
            rw [hp0] at hp
            simp only [List.getElem?_cons_zero, Option.some.injEq] at hp
            subst hp
            by_cases hql : q < b.heap.length
            · rw [if_pos hql] at hq
              exact absurd ⟨hw.symm, hh.symm⟩ (hnone q ((mem_links b hb q).2 hql) mq hq)
            · rw [if_neg hql] at hq
              have hq0 : q - b.heap.length = 0 := by
                cases hk : q - b.heap.length with
                | zero => rfl
                | succ k => rw [hk] at hq; simp at hq
              omega
        · intro p m hp hflag
          simp only [List.getElem?_append] at hp
          by_cases hpl : p < b.heap.length
          · rw [if_pos hpl] at hp
            exact hb.flagged p m hp hflag
          · rw [if_neg hpl] at hp
            have hp0 : p - b.heap.length = 0 := by
              cases hk : p - b.heap.length with
              | zero => rfl
              | succ k => rw [hk] at hp; simp at hp
            rw [hp0] at hp
            simp only [List.getElem?_cons_zero, Option.some.injEq] at hp
            subst hp
            exact absurd (Nat.zero_and _) hflag
      · intro h
        cases h
      · intro l hl
        have : b.heap.length = l := Option.some.inj hl
        subst this
        refine ⟨{ flags := 0, width := t.width, height := t.height, refresh := REFRESH_FREQ },
          ?_, rfl, rfl⟩
        show (b.heap ++ [_])[b.heap.length]? = _
        simp

/-- Reading the heap after the two flag stores of `rtpvideo_switch_mode`. -/
theorem switched_heap_lookup (heap : List weston_mode) (old l : Nat) (mo ml : weston_mode)
    (hmo : heap[old]? = some mo) (hml : heap[l]? = some ml) (p : Nat) :
    ((heap.set old (clear_current mo)).set l (set_current ml))[p]? =
      if l = p then some (set_current ml)
      else if old = p then some (clear_current mo) else heap[p]? := by
  have hl : l < heap.length := (List.getElem?_eq_some.1 hml).1
  have ho : old < heap.length := (List.getElem?_eq_some.1 hmo).1
  rw [List.getElem?_set, List.getElem?_set, List.length_set]
  simp only [hl, ho, if_true]

/-- The two flag stores of `rtpvideo_switch_mode` keep the invariant. -/
theorem switched_inv (b : weston_output) (hb : ModeInv b) (old l : Nat) (mo ml : weston_mode)
    (hold : b.current_mode = some old)
    (hmo : b.heap[old]? = some mo) (hml : b.heap[l]? = some ml) :
    ModeInv { b with
      heap := (b.heap.set old (clear_current mo)).set l (set_current ml)
      current_mode := some l } := by
  have hl : l < b.heap.length := (List.getElem?_eq_some.1 hml).1
  have hlook := switched_heap_lookup b.heap old l mo ml hmo hml
  have hdims : ∀ (p : Nat) (m2 : weston_mode),
      ((b.heap.set old (clear_current mo)).set l (set_current ml))[p]? = some m2 →
      ∃ m, b.heap[p]? = some m ∧ m.width = m2.width ∧ m.height = m2.height := by
    intro p m2 h
    rw [hlook] at h
    by_cases h1 : l = p
    · rw [if_pos h1] at h
      subst h1
      exact ⟨ml, hml, by rw [← Option.some.inj h]; rfl, by rw [← Option.some.inj h]; rfl⟩
    · rw [if_neg h1] at h
      by_cases h2 : old = p
      · rw [if_pos h2] at h
        subst h2
        exact ⟨mo, hmo, by rw [← Option.some.inj h]; rfl, by rw [← Option.some.inj h]; rfl⟩
      · rw [if_neg h2] at h
        exact ⟨m2, h, rfl, rfl⟩
  constructor
  · show b.mode_list = (List.range ((b.heap.set old _).set l _).length).reverse
    rw [List.length_set, List.length_set]
    exact hb.links
  · refine ⟨l, rfl, ?_⟩
    show l < ((b.heap.set old _).set l _).length
    rw [List.length_set, List.length_set]
    exact hl
  · intro p q mp mq hp hq hw hh
    obtain ⟨m1, h1, hw1, hh1⟩ := hdims p mp hp
    obtain ⟨m2, h2, hw2, hh2⟩ := hdims q mq hq
    exact hb.distinct p q m1 m2 h1 h2 (by omega) (by omega)
  · intro p m hp hflag
    show some l = some p
    have hp2 : ((b.heap.set old (clear_current mo)).set l (set_current ml))[p]? = some m := hp
    rw [hlook] at hp2
    by_cases h1 : l = p
    · rw [h1]
    · rw [if_neg h1] at hp2
      by_cases h2 : old = p
      · rw [if_pos h2] at hp2
        rw [← Option.some.inj hp2] at hflag
        exact absurd (clear_current_flags mo) hflag
      · rw [if_neg h2] at hp2
        have := hb.flagged p m hp2 hflag
        rw [hold] at this
        exact absurd (Option.some.inj this) h2

/-- The three ways `rtpvideo_switch_mode` ends on an output that satisfies the
invariant: no mode could be had; the resolved mode is the current one; or the
current mode changes. -/
theorem switch_mode_cases (pix : Pixman) (o : rtpvideo_output) (t : weston_mode) (a : Bool)
    (f : RtpVideoTx_Format) (hb : ModeInv o.base) :
    ((ensure_matching_mode o.base t a).1 = none ∧
      rtpvideo_switch_mode pix o t a f = some (-ENOENT, o, [Event.weston_log])) ∨
    (∃ l, (ensure_matching_mode o.base t a).1 = some l ∧
      (ensure_matching_mode o.base t a).2.current_mode = some l ∧
      rtpvideo_switch_mode pix o t a f =
        some (0, { o with base := (ensure_matching_mode o.base t a).2 }, [])) ∨
    (∃ l old mo ml, (ensure_matching_mode o.base t a).1 = some l ∧
      (ensure_matching_mode o.base t a).2.current_mode = some old ∧ old ≠ l ∧
      (ensure_matching_mode o.base t a).2.heap[old]? = some mo ∧
      (ensure_matching_mode o.base t a).2.heap[l]? = some ml ∧
      rtpvideo_switch_mode pix o t a f =
        some (0,
          { base := { (ensure_matching_mode o.base t a).2 with
              heap := ((ensure_matching_mode o.base t a).2.heap.set old (clear_current mo)).set l
                (set_current ml)
              current_mode := some l }
            shadow_surface := pix.composite32 o.shadow_surface
              (pix.create_bits (pixman_format_of f) t.width t.height (t.width * 3))
              t.width t.height },
          [Event.renderer_output_destroy, Event.renderer_output_create,
           Event.create_bits (pixman_format_of f) t.width t.height (t.width * 3),
           Event.composite32 t.width t.height, Event.image_unref])) := by
  obtain ⟨hinv, hcur, _, _, hnone, hsome⟩ := ensure_matching_mode_inv o.base t a hb
  unfold rtpvideo_switch_mode
  rcases he : ensure_matching_mode o.base t a with ⟨r, b⟩
  rw [he] at hinv hcur hnone hsome
  cases r with
  | none =>
    left
    have hbo : b = o.base := hnone rfl
    subst hbo
    exact ⟨rfl, rfl⟩
  | some l =>
    right
    obtain ⟨ml, hml, _, _⟩ := hsome l rfl
    by_cases hc : some l = b.current_mode
    · left
      refine ⟨l, rfl, hc.symm, ?_⟩
      simp only [hc, if_true]
    · right
      obtain ⟨old, hold, holdlt⟩ := hinv.current
      have hne : old ≠ l := by
        intro h
        apply hc
        show some l = b.current_mode
        rw [hold, h]
      have hl : l < b.heap.length := (List.getElem?_eq_some.1 hml).1
      have hmo : b.heap[old]? = some b.heap[old] := List.getElem?_eq_getElem holdlt
      have hml2 : (b.heap.set old (clear_current b.heap[old]))[l]? = some ml := by
        rw [List.getElem?_set, if_neg hne]
        exact hml
      refine ⟨l, old, b.heap[old], ml, rfl, hold, hne, hmo, hml, ?_⟩
      have hc2 : ¬ (some l = b.current_mode) := hc
      simp only [hc2, if_false]
      show (match b.current_mode with
        | none => none
        | some old => _) = _
      rw [hold]
      simp only [update_mode, hmo, hml2]

/-- A returning `rtpvideo_switch_mode` keeps the invariant. -/
theorem switch_mode_inv (pix : Pixman) (o : rtpvideo_output) (t : weston_mode) (a : Bool)
    (f : RtpVideoTx_Format) (r : Int) (o2 : rtpvideo_output) (evs : List Event)
    (hb : ModeInv o.base) (h : rtpvideo_switch_mode pix o t a f = some (r, o2, evs)) :
    ModeInv o2.base := by
  obtain ⟨hinv, _, _, _, _, _⟩ := ensure_matching_mode_inv o.base t a hb
  rcases switch_mode_cases pix o t a f hb with ⟨_, h1⟩ | ⟨l, _, _, h1⟩ |
    ⟨l, old, mo, ml, _, hold, _, hmo, hml, h1⟩
  · rw [h1] at h
    have e : o = o2 := (Prod.mk.inj (Prod.mk.inj (Option.some.inj h)).2).1
    rw [← e]
    exact hb
  · rw [h1] at h
    have e := (Prod.mk.inj (Prod.mk.inj (Option.some.inj h)).2).1
    rw [← e]
    exact hinv
  · rw [h1] at h
    have e := (Prod.mk.inj (Prod.mk.inj (Option.some.inj h)).2).1
    rw [← e]
    exact switched_inv _ hinv old l mo ml hold hmo hml

/-- A returning `rtpvideo_output_enable` leaves the mode table alone. -/
theorem enable_base (pix : Pixman) (o : rtpvideo_output) (f : RtpVideoTx_Format) (ok : Bool)
    (r : Int) (o2 : rtpvideo_output) (evs : List Event)
    (h : rtpvideo_output_enable pix o f ok = some (r, o2, evs)) : o2.base = o.base := by
  unfold rtpvideo_output_enable at h
  cases hc : o.base.current_mode with
  | none => rw [hc] at h; cases h
  | some c =>
    rw [hc] at h
    cases hm : o.base.heap[c]? with
    | none => simp only [hm] at h; cases h
    | some cur =>
      simp only [hm] at h
      cases hp : pix.create_bits (pixman_format_of f) cur.width cur.height (cur.width * 3) with
      | none =>
        rw [hp] at h
        have e := (Prod.mk.inj (Prod.mk.inj (Option.some.inj h)).2).1
        rw [← e]
      | some sf =>
        rw [hp] at h
        cases ok with
        | true =>
          simp only [if_true] at h
          have e := (Prod.mk.inj (Prod.mk.inj (Option.some.inj h)).2).1
          rw [← e]
        | false =>
          simp only [Bool.false_eq_true, if_false] at h
          have e := (Prod.mk.inj (Prod.mk.inj (Option.some.inj h)).2).1
          rw [← e]

/-- A successful `rtpvideo_output_set_size` on a fresh output establishes the
invariant and records the size in `mm_width` and `mm_height`. -/
theorem set_size_inv (width height : Int) (a : Bool) (o : rtpvideo_output)
    (h : rtpvideo_output_set_size fresh_output width height a = some (0, o)) :
    ModeInv o.base := by
  cases a with
  | false =>
    have e : rtpvideo_output_set_size fresh_output width height false =
      some (-1, fresh_output) := rfl
    rw [e] at h
    have := (Prod.mk.inj (Option.some.inj h)).1
    omega
  | true =>
    have e : rtpvideo_output_set_size fresh_output width height true =
      some (0, { base := { heap := [{ flags := 0, width := width, height := height,
                                      refresh := REFRESH_FREQ }],
                           mode_list := [0], current_mode := some 0, native_mode := some 0,
                           mm_width := width, mm_height := height },
                 shadow_surface := none }) := rfl
    rw [e] at h
    have e2 := (Prod.mk.inj (Option.some.inj h)).2
    rw [← e2]
    constructor
    · rfl
    · exact ⟨0, rfl, Nat.zero_lt_one⟩
    · intro p q mp mq hp hq _ _
      have hp1 : p < 1 := (List.getElem?_eq_some.1 hp).1
      have hq1 : q < 1 := (List.getElem?_eq_some.1 hq).1
      omega
    · intro p m hp hflag
      have hp1 : p < 1 := (List.getElem?_eq_some.1 hp).1
      have hp0 : p = 0 := by omega
      subst hp0
      rfl

/-- Every reachable output satisfies the invariant. -/
theorem reachable_inv (pix : Pixman) (o : rtpvideo_output) (h : Reachable pix o) :
    ModeInv o.base := by
  induction h with
  | set_size width height a o hs => exact set_size_inv width height a o hs
  | enable o f ok r o2 evs _ he ih => rw [enable_base pix o f ok r o2 evs he]; exact ih
  | switch_mode o t a f r o2 evs _ hs ih => exact switch_mode_inv pix o t a f r o2 evs ih hs

/-- Asking for the size of the current mode is a no-op that returns 0. -/
theorem switch_mode_same_size (pix : Pixman) (o : rtpvideo_output) (hb : ModeInv o.base)
    (c : Nat) (m t : weston_mode) (a : Bool) (f : RtpVideoTx_Format)
    (hc : o.base.current_mode = some c) (hm : o.base.heap[c]? = some m)
    (hw : t.width = m.width) (hh : t.height = m.height) :
    rtpvideo_switch_mode pix o t a f = some (0, o, []) := by
  have hcl : c ∈ o.base.mode_list :=
    (mem_links o.base hb c).2 (List.getElem?_eq_some.1 hm).1
  have hf : find_mode o.base.heap t o.base.mode_list = some c := by
    cases hf : find_mode o.base.heap t o.base.mode_list with
    | none => exact absurd ⟨hw.symm, hh.symm⟩ (find_mode_none _ _ _ hf c hcl m hm)
    | some l =>
      obtain ⟨_, m2, hm2, hw2, hh2⟩ := find_mode_some _ _ _ _ hf
      rw [hb.distinct l c m2 m hm2 hm (by omega) (by omega)]
  have he : ensure_matching_mode o.base t a = (some c, o.base) := by
    unfold ensure_matching_mode
    rw [hf]
  unfold rtpvideo_switch_mode
  rw [he]
  simp only [hc, if_true]

/-- After a successful `rtpvideo_switch_mode` the current mode has the size that
was asked for. -/
theorem switch_mode_current_size (pix : Pixman) (o : rtpvideo_output) (t : weston_mode)
    (a : Bool) (f : RtpVideoTx_Format) (o1 : rtpvideo_output) (evs : List Event)
    (hb : ModeInv o.base) (h : rtpvideo_switch_mode pix o t a f = some (0, o1, evs)) :
    ∃ c m, o1.base.current_mode = some c ∧ o1.base.heap[c]? = some m ∧
      m.width = t.width ∧ m.height = t.height := by
  obtain ⟨_, _, _, _, _, hsome⟩ := ensure_matching_mode_inv o.base t a hb
  rcases switch_mode_cases pix o t a f hb with ⟨_, h1⟩ | ⟨l, hl, hcur, h1⟩ |
    ⟨l, old, mo, ml, hl, hold, hne, hmo, hml, h1⟩
  · rw [h1] at h
    have := (Prod.mk.inj (Option.some.inj h)).1
    simp [ENOENT] at this
  · rw [h1] at h
    have e := (Prod.mk.inj (Prod.mk.inj (Option.some.inj h)).2).1
    rw [← e]
    obtain ⟨m, hm, hw, hh⟩ := hsome l hl
    exact ⟨l, m, hcur, hm, hw, hh⟩
  · rw [h1] at h
    have e := (Prod.mk.inj (Prod.mk.inj (Option.some.inj h)).2).1
    rw [← e]
    obtain ⟨m, hm, hw, hh⟩ := hsome l hl
    rw [hml] at hm
    have hmm : ml = m := Option.some.inj hm
    subst hmm
    refine ⟨l, set_current ml, rfl, ?_, hw, hh⟩
    show ((_ : List weston_mode).set l (set_current ml))[l]? = _
    rw [switched_heap_lookup _ old l mo ml hmo hml, if_pos rfl]

/-- The flag test on a mode that is present. -/
theorem carries_current_iff (b : weston_output) (p : Nat) :
    carries_current b p = true ↔
      ∃ m, b.heap[p]? = some m ∧ m.flags &&& WL_OUTPUT_MODE_CURRENT ≠ 0 := by
  unfold carries_current
  cases hp : b.heap[p]? with
  | none => simp
  | some m => simp

/-- C10: in every reachable output at most one linked mode carries
`WL_OUTPUT_MODE_CURRENT`; every `rtpvideo_switch_mode` call on it returns, and
when the call changes the current mode, the previously current mode no longer
carries the flag and the new current mode does. -/
theorem at_most_one_current_mode (pix : Pixman) (o : rtpvideo_output)
    (h : Reachable pix o) :
    (∀ p ∈ o.base.mode_list, ∀ q ∈ o.base.mode_list,
      carries_current o.base p = true → carries_current o.base q = true → p = q) ∧
    ∀ (t : weston_mode) (a : Bool) (f : RtpVideoTx_Format),
      ∃ r o2 evs, rtpvideo_switch_mode pix o t a f = some (r, o2, evs) ∧
        (o2.base.current_mode ≠ o.base.current_mode →
          ∃ old new, o.base.current_mode = some old ∧ o2.base.current_mode = some new ∧
            old ∈ o2.base.mode_list ∧ new ∈ o2.base.mode_list ∧
            carries_current o2.base old = false ∧ carries_current o2.base new = true) := by
  have hb := reachable_inv pix o h
  constructor
  · intro p _ q _ hp hq
    obtain ⟨mp, hmp, hfp⟩ := (carries_current_iff _ _).1 hp
    obtain ⟨mq, hmq, hfq⟩ := (carries_current_iff _ _).1 hq
    have h1 := hb.flagged p mp hmp hfp
    have h2 := hb.flagged q mq hmq hfq
    rw [h1] at h2
    exact Option.some.inj h2
  · intro t a f
    obtain ⟨hinv, hcur, _, _, _, _⟩ := ensure_matching_mode_inv o.base t a hb
    rcases switch_mode_cases pix o t a f hb with ⟨_, h1⟩ | ⟨l, _, _, h1⟩ |
      ⟨l, old, mo, ml, _, hold, hne, hmo, hml, h1⟩
    · exact ⟨_, _, _, h1, fun hc => absurd rfl hc⟩
    · exact ⟨_, _, _, h1, fun hc => absurd hcur hc⟩
    · refine ⟨_, _, _, h1, fun _ => ⟨old, l, by rw [← hcur, hold], rfl, ?_, ?_, ?_, ?_⟩⟩
      · exact (mem_links _ hinv old).2 (List.getElem?_eq_some.1 hmo).1
      · exact (mem_links _ hinv l).2 (List.getElem?_eq_some.1 hml).1
      · show carries_current { (ensure_matching_mode o.base t a).2 with
          heap := ((ensure_matching_mode o.base t a).2.heap.set old (clear_current mo)).set l
            (set_current ml)
          current_mode := some l } old = false
        unfold carries_current
        show (match (((ensure_matching_mode o.base t a).2.heap.set old (clear_current mo)).set l
            (set_current ml))[old]? with
          | some m => m.flags &&& WL_OUTPUT_MODE_CURRENT != 0
          | none => false) = false
        rw [switched_heap_lookup _ old l mo ml hmo hml, if_neg (Ne.symm hne), if_pos rfl]
        simp [clear_current_flags]
      · show carries_current { (ensure_matching_mode o.base t a).2 with
          heap := ((ensure_matching_mode o.base t a).2.heap.set old (clear_current mo)).set l
            (set_current ml)
          current_mode := some l } l = true
        unfold carries_current
        show (match (((ensure_matching_mode o.base t a).2.heap.set old (clear_current mo)).set l
            (set_current ml))[l]? with
          | some m => m.flags &&& WL_OUTPUT_MODE_CURRENT != 0
          | none => false) = true
        rw [switched_heap_lookup _ old l mo ml hmo hml, if_pos rfl]
        simpa using set_current_flags ml

/-- C10 at the output obtained by `rtpvideo_output_set_size (4, 2)` and
`rtpvideo_output_enable`, switched to 2x1. -/
theorem at_most_one_current_mode_witness :
    Reachable pixman_blank output_enabled ∧
    (∀ p ∈ output_enabled.base.mode_list, ∀ q ∈ output_enabled.base.mode_list,
      carries_current output_enabled.base p = true →
      carries_current output_enabled.base q = true → p = q) ∧
    rtpvideo_switch_mode pixman_blank output_enabled
      { flags := 0, width := 2, height := 1, refresh := 0 } true RtpVideoTx_Format.RGB_8bit =
      some (0, output_switched,
        [Event.renderer_output_destroy, Event.renderer_output_create,
         Event.create_bits pixman_format_code_t.PIXMAN_b8g8r8 2 1 6,
         Event.composite32 2 1, Event.image_unref]) ∧
    carries_current output_switched.base 0 = false ∧
    carries_current output_switched.base 1 = true := by
  have hr : Reachable pixman_blank output_enabled :=
    Reachable.enable output_sized RtpVideoTx_Format.RGB_8bit true 0 output_enabled
      [Event.create_bits pixman_format_code_t.PIXMAN_b8g8r8 4 2 12,
       Event.renderer_output_create, Event.timer_add Timer.finish_frame,
       Event.timer_add Timer.redraw_frame, Event.timer_update Timer.redraw_frame 1000]
      (Reachable.set_size 4 2 true output_sized (by decide)) (by decide)
  exact ⟨hr, (at_most_one_current_mode pixman_blank output_enabled hr).1, by decide, by decide,
    by decide⟩

/-- C4: on a reachable output, after one successful `rtpvideo_switch_mode` to a
width and height, a second call for the same width and height returns 0, leaves
the whole output (mode table, every mode's flags, current mode, shadow surface)
as it is and makes no call to any collaborator; and a call for the width and
height of the current mode is such a no-op. -/
theorem switch_mode_idempotent (pix : Pixman) (o : rtpvideo_output) (h : Reachable pix o) :
    (∀ (t : weston_mode) (a : Bool) (f : RtpVideoTx_Format) (o1 : rtpvideo_output)
        (evs : List Event),
      rtpvideo_switch_mode pix o t a f = some (0, o1, evs) →
      ∀ (t2 : weston_mode) (a2 : Bool) (f2 : RtpVideoTx_Format),
        t2.width = t.width → t2.height = t.height →
        rtpvideo_switch_mode pix o1 t2 a2 f2 = some (0, o1, [])) ∧
    (∀ (c : Nat) (m t : weston_mode) (a : Bool) (f : RtpVideoTx_Format),
      o.base.current_mode = some c → o.base.heap[c]? = some m →
      t.width = m.width → t.height = m.height →
      rtpvideo_switch_mode pix o t a f = some (0, o, [])) := by
  have hb := reachable_inv pix o h
  constructor
  · intro t a f o1 evs h1 t2 a2 f2 hw hh
    have hb1 := switch_mode_inv pix o t a f 0 o1 evs hb h1
    obtain ⟨c, m, hc, hm, hmw, hmh⟩ := switch_mode_current_size pix o t a f o1 evs hb h1
    exact switch_mode_same_size pix o1 hb1 c m t2 a2 f2 hc hm (by omega) (by omega)
  · intro c m t a f hc hm hw hh
    exact switch_mode_same_size pix o hb c m t a f hc hm hw hh

/-- C4 at the enabled 4x2 output: after the switch to 2x1 a second switch to 2x1
changes nothing, and on the enabled output a switch to 4x2 changes nothing. -/
theorem switch_mode_idempotent_witness :
    Reachable pixman_blank output_enabled ∧
    rtpvideo_switch_mode pixman_blank output_enabled
      { flags := 0, width := 2, height := 1, refresh := 0 } true RtpVideoTx_Format.RGB_8bit =
      some (0, output_switched,
        [Event.renderer_output_destroy, Event.renderer_output_create,
         Event.create_bits pixman_format_code_t.PIXMAN_b8g8r8 2 1 6,
         Event.composite32 2 1, Event.image_unref]) ∧
    rtpvideo_switch_mode pixman_blank output_switched
      { flags := 0, width := 2, height := 1, refresh := 0 } false RtpVideoTx_Format.BGR_8bit =
      some (0, output_switched, []) ∧
    rtpvideo_switch_mode pixman_blank output_enabled
      { flags := 0, width := 4, height := 2, refresh := 0 } true RtpVideoTx_Format.RGB_8bit =
      some (0, output_enabled, []) := by
  have hr : Reachable pixman_blank output_enabled :=
    Reachable.enable output_sized RtpVideoTx_Format.RGB_8bit true 0 output_enabled
      [Event.create_bits pixman_format_code_t.PIXMAN_b8g8r8 4 2 12,
       Event.renderer_output_create, Event.timer_add Timer.finish_frame,
       Event.timer_add Timer.redraw_frame, Event.timer_update Timer.redraw_frame 1000]
      (Reachable.set_size 4 2 true output_sized (by decide)) (by decide)
  have hs : rtpvideo_switch_mode pixman_blank output_enabled
      { flags := 0, width := 2, height := 1, refresh := 0 } true RtpVideoTx_Format.RGB_8bit =
      some (0, output_switched,
        [Event.renderer_output_destroy, Event.renderer_output_create,
         Event.create_bits pixman_format_code_t.PIXMAN_b8g8r8 2 1 6,
         Event.composite32 2 1, Event.image_unref]) := by decide
  have h := switch_mode_idempotent pixman_blank output_enabled hr
  exact ⟨hr, hs, h.1 _ _ _ _ _ hs _ false RtpVideoTx_Format.BGR_8bit rfl rfl,
    h.2 0 { flags := 0, width := 4, height := 2, refresh := 60000 } _ true
      RtpVideoTx_Format.RGB_8bit rfl rfl rfl rfl⟩

/-- C6 (evaluation of the code): after `rtpvideo_output_set_size (4, 2)`,
`rtpvideo_output_enable` and a successful `rtpvideo_switch_mode` to 2x1, the
current mode is 2x1 and the shadow surface is 2x1, yet a fire of the redraw timer
encodes the region (0,0)-(4,2) of the size set first: it submits rows 0 and 1
with 12 bytes each, reading past the 8-byte buffer, before it re-arms the timer
for 1000 ms. -/
theorem redraw_encodes_the_size_set_first :
    rtpvideo_output_set_size fresh_output 4 2 true = some (0, output_sized) ∧
    (rtpvideo_output_enable pixman_blank output_sized RtpVideoTx_Format.RGB_8bit true).map
      (fun r => (r.1, r.2.1)) = some (0, output_enabled) ∧
    (rtpvideo_switch_mode pixman_blank output_enabled
      { flags := 0, width := 2, height := 1, refresh := 60000 } true
      RtpVideoTx_Format.RGB_8bit).map (fun r => (r.1, r.2.1)) = some (0, output_switched) ∧
    output_switched.base.current_mode = some 1 ∧
    output_switched.base.heap[1]? =
      some { flags := 1, width := 2, height := 1, refresh := 60000 } ∧
    redraw_damage output_switched = { x1 := 0, y1 := 0, x2 := 4, y2 := 2 } ∧
    redraw_frame_handler output_switched acq_always { tv_sec := 0, tv_nsec := 0 } =
      some (0,
        [Event.beginFrame 0,
         Event.getLineBuffer 12,
         Event.addLine 0 0 12
           [some 0, some 0, some 0, some 0, some 0, some 0, some 0, some 0,
            none, none, none, none] 0,
         Event.getLineBuffer 12,
         Event.addLine 1 0 12
           [none, none, none, none, none, none, none, none, none, none, none, none] 1,
         Event.flush,
         Event.timer_update Timer.redraw_frame 1000]) := by
  decide

end RtpVideo
